import Mathlib

/-!
Shallow embedding of the request-dispatch core of deckyfx/node-server
(src/index.ts): the path router, the body decoder (urlencoded, JSON and
the hand-rolled multipart/form-data parser with sequential file writes),
and the dispatch state machine, together with the module-level server
state (maintenance flag, CORS flag, directories, route table).

External collaborators (the file system, node:path joining, the JS
builtins decodeURIComponent and JSON.parse, the clock used for the
timestamp fallback) are passed in as explicit parameters or modelled as
small executable Lean functions, as noted on each definition.
-/

/-- Whitespace class used by the JavaScript regular-expression class
backslash-s and by String.prototype.trim on the ASCII inputs this
development exercises: space, tab, carriage return, line feed, vertical
tab and form feed. -/
def isSpaceJS (c : Char) : Bool :=
  c == ' ' || c == '\t' || c == '\r' || c == '\n' || c == Char.ofNat 11 || c == Char.ofNat 12

/-- Fuel-driven worker for jsSplit. The fuel starts at the length of the
input plus one, and every step either consumes one character or, on a
separator occurrence, at least one character, so the fuel never runs out
on the initial call. -/
def jsSplitFuel (sep : List Char) : Nat → List Char → List Char → List (List Char)
  | 0, _, cur => [cur.reverse]
  | Nat.succ fuel, s, cur =>
    match s with
    | [] => [cur.reverse]
    | c :: rest =>
      if sep ≠ [] ∧ sep.isPrefixOf s then
        cur.reverse :: jsSplitFuel sep fuel (s.drop sep.length) []
      else
        jsSplitFuel sep fuel rest (c :: cur)

/-- Model of JavaScript String.prototype.split with a non-empty string
separator, as used throughout src/index.ts: returns the list of chunks
between non-overlapping left-to-right occurrences of the separator, with
the empty string splitting to a singleton list holding the empty string. -/
def jsSplit (sep s : String) : List String :=
  (jsSplitFuel sep.data (s.data.length + 1) s.data []).map (fun l => String.mk l)

/-- JavaScript String.prototype.trim restricted to the ASCII whitespace
the claims exercise. -/
def jsTrim (s : String) : String :=
  String.mk (((s.data.dropWhile isSpaceJS).reverse.dropWhile isSpaceJS).reverse)

/-- Value of a hexadecimal digit character, if it is one. -/
def hexVal (c : Char) : Option Nat :=
  if '0' ≤ c ∧ c ≤ '9' then some (c.toNat - '0'.toNat)
  else if 'a' ≤ c ∧ c ≤ 'f' then some (c.toNat - 'a'.toNat + 10)
  else if 'A' ≤ c ∧ c ≤ 'F' then some (c.toNat - 'A'.toNat + 10)
  else none

/-- Worker for decodeURIComponent: replaces each percent sign followed by
two hexadecimal digits with the character of that code. -/
def percentDecodeAux : List Char → List Char
  | '%' :: h1 :: h2 :: rest =>
    match hexVal h1, hexVal h2 with
    | some a, some b => Char.ofNat (16 * a + b) :: percentDecodeAux rest
    | _, _ => '%' :: percentDecodeAux (h1 :: h2 :: rest)
  | c :: rest => c :: percentDecodeAux rest
  | [] => []

/-- Model of the JavaScript builtin decodeURIComponent on the single-byte
escape sequences the claims exercise; on input without percent escapes it
is the identity. Malformed escapes, on which the builtin throws, are left
in place here; no claim exercises them. -/
def decodeURIComponent (s : String) : String :=
  String.mk (percentDecodeAux s.data)

/-- A JavaScript object with string values, as a key-value list in
insertion order. -/
abbrev JSRecord := List (String × String)

/-- JavaScript object assignment: an existing key keeps its position and
gets the new value, a new key is appended. -/
def recSet (r : JSRecord) (k v : String) : JSRecord :=
  if r.any (fun p => p.1 = k) then
    r.map (fun p => if p.1 = k then (k, v) else p)
  else
    r ++ [(k, v)]

/-- JavaScript delete of a key from an object. -/
def recDelete (r : JSRecord) (k : String) : JSRecord :=
  r.filter (fun p => p.1 ≠ k)

/-- Embedding of parseQueryString (src/index.ts lines 215 to 223): split
on the ampersand, destructure each pair as the first two chunks of a full
split on the equals sign, percent-decode the value (a pair with no equals
sign gets the string rendering of undefined, as the builtin coerces the
missing value), and assign into the result object. -/
def parseQueryString (queryString : String) : JSRecord :=
  (jsSplit "&" queryString).foldl
    (fun result pair =>
      let kv := jsSplit "=" pair
      let key := kv.headD ""
      let value :=
        match kv.get? 1 with
        | some v => decodeURIComponent v
        | none => "undefined"
      recSet result key value)
    []

/-- The urlencoded pair rule as the specification words it, for
comparison with parseQueryString: the key is everything before the first
equals sign and the value is everything after it, percent-decoded. -/
def parseQueryStringSpec (queryString : String) : JSRecord :=
  (jsSplit "&" queryString).foldl
    (fun result pair =>
      let kv := jsSplit "=" pair
      let key := kv.headD ""
      let value := decodeURIComponent (String.intercalate "=" kv.tail)
      recSet result key value)
    []

/-- Checks whether the key (the literal text of the parameter keyword
followed by the equals sign) sits at the front of the character list,
returning the remainder on success. -/
def dropKey : List Char → List Char → Option (List Char)
  | [], s => some s
  | _ :: _, [] => none
  | k :: ks, c :: cs => if c = k then dropKey ks cs else none

/-- Characters admitted by the capture class of the two header regular
expressions in parseMultiParts: everything except the double quote, the
semicolon, carriage return and line feed. -/
def captureOk (c : Char) : Bool :=
  !(c == '"' || c == ';' || c == '\r' || c == '\n')

/-- First-match scan for the parameter regular expressions of
parseMultiParts (src/index.ts lines 477 to 478): a whitespace character,
the keyword with its equals sign, an optional double quote, then a
non-empty greedy run of capture characters, which is the returned
capture. Positions are tried left to right as the JavaScript engine
does. -/
def matchParamAux (key : List Char) : List Char → Option String
  | [] => none
  | c :: rest =>
    if isSpaceJS c then
      match dropKey key rest with
      | some after =>
        let after2 := match after with
          | '"' :: t => t
          | t => t
        let cap := after2.takeWhile captureOk
        if cap = [] then matchParamAux key rest else some (String.mk cap)
      | none => matchParamAux key rest
    else
      matchParamAux key rest

/-- Regex match for a header parameter of a multipart part. -/
def matchParam (key : String) (s : String) : Option String :=
  matchParamAux key.data s.data

/-- One entry of the files list: destination path and the write error, if
any. The error is carried as its message. -/
structure UploadResult where
  file : String
  error : Option String
deriving DecidableEq, Repr

/-- Mutable state of the parseMultiParts loop: the postData object under
construction (text fields only; the files key is attached at the end) and
the uploadedFiles list. -/
structure MultiAcc where
  postData : JSRecord
  uploadedFiles : List UploadResult
deriving DecidableEq, Repr

/-- One iteration of parseMultiParts (src/index.ts lines 466 to 508) on
the part at the current index: extract the name and filename parameters
and the content after the first blank line. A part with a filename is
written (the write collaborator returns the error message, if any) under
the name parameter of the part, falling back to the clock timestamp; the
outcome is appended to uploadedFiles. A part without a filename is a text
field merged into postData under its name. The result is none exactly
when the part has no blank line, in which case the JavaScript code throws
(content is undefined) and processing dies without a response. -/
def parseMultiPartsStep (write : String → String → Option String)
    (uploadDir timestamp : String) (part : String) (acc : MultiAcc) : Option MultiAcc :=
  let name := matchParam "name=" part
  let disposition := matchParam "filename=" part
  let content := (jsSplit "\r\n\r\n" part).get? 1
  if disposition.isSome then
    match content with
    | none => none
    | some c =>
      let filename :=
        match name with
        | some s => if s = "" then timestamp else s
        | none => timestamp
      let filePath := uploadDir ++ "/" ++ filename
      some { acc with uploadedFiles := acc.uploadedFiles ++ [⟨filePath, write filePath c⟩] }
  else
    match content with
    | none => none
    | some c =>
      let varname := match name with | some s => s | none => ""
      let value := jsTrim c
      if varname ≠ "" then
        some { acc with postData := recSet acc.postData varname value }
      else
        some acc

/-- Embedding of the recursive parseMultiParts chain: parts are processed
strictly one at a time, each iteration running only from the completion
callback of the previous write, which the step function models; the
recursion therefore folds the step over the parts in body order. The
result is none when some step throws. -/
def parseMultiParts (write : String → String → Option String)
    (uploadDir timestamp : String) : List String → MultiAcc → Option MultiAcc
  | [], acc => some acc
  | part :: rest, acc =>
    match parseMultiPartsStep write uploadDir timestamp part acc with
    | none => none
    | some acc2 => parseMultiParts write uploadDir timestamp rest acc2

/-- The upload outcome a single part contributes, if it is a file part
that does not throw: the destination path derived from the name parameter
with the timestamp fallback, together with the write error, if any. Text
parts and parts with no blank line contribute nothing. -/
def partFileResult (write : String → String → Option String)
    (uploadDir timestamp : String) (part : String) : Option UploadResult :=
  let name := matchParam "name=" part
  let disposition := matchParam "filename=" part
  let content := (jsSplit "\r\n\r\n" part).get? 1
  if disposition.isSome then
    match content with
    | none => none
    | some c =>
      let filename :=
        match name with
        | some s => if s = "" then timestamp else s
        | none => timestamp
      let filePath := uploadDir ++ "/" ++ filename
      some ⟨filePath, write filePath c⟩
  else
    none

/-- Line grouping of the raw multipart body (src/index.ts lines 449 to
462): split on CRLF, flush the accumulated part at each boundary line,
and push the trailing accumulation unconditionally at the end. -/
def splitParts (boundary : String) (data : String) : List String :=
  let fin :=
    (jsSplit "\r\n" data).foldl
      (fun (st : List String × List String) (line : String) =>
        if line = boundary then
          if st.2 ≠ [] then (st.1 ++ [String.intercalate "\r\n" st.2], []) else st
        else
          (st.1, st.2 ++ [line]))
      ([], [])
  fin.1 ++ [String.intercalate "\r\n" fin.2]

/-- Boundary extraction (src/index.ts lines 444 to 447): the text after
the literal boundary parameter introducer in the content-type, trimmed,
with every double quote removed, prefixed by two dashes. The result is
none when the content-type has no boundary parameter, in which case the
JavaScript code throws on undefined and dies without a response. -/
def extractBoundary (contentType : String) : Option String :=
  match (jsSplit "boundary=" contentType).get? 1 with
  | none => none
  | some s => some ("--" ++ String.mk ((jsTrim s).data.filter (fun c => c ≠ '"')))

/-- The whole multipart branch of the end-of-body handler: extract the
boundary, group the body lines into parts, and run the sequential
parseMultiParts chain from an empty accumulator. -/
def decodeMultipart (write : String → String → Option String)
    (uploadDir timestamp contentType data : String) : Option MultiAcc :=
  match extractBoundary contentType with
  | none => none
  | some boundary =>
    parseMultiParts write uploadDir timestamp (splitParts boundary data) ⟨[], []⟩

/-- The JSON data model for the model of the builtin JSON.parse. Numbers
keep their source lexeme; no claim inspects a numeric value. -/
inductive Json where
  | null
  | bool (b : Bool)
  | num (raw : String)
  | str (s : String)
  | arr (elems : List Json)
  | obj (fields : List (String × Json))

/-- JSON insignificant whitespace. -/
def skipWsJson (cs : List Char) : List Char :=
  cs.dropWhile (fun c => c == ' ' || c == '\t' || c == '\n' || c == '\r')

/-- String-literal body scanner for the JSON.parse model, called after
the opening quote: handles the JSON escape sequences and rejects raw
control characters, returning the decoded text and the remainder after
the closing quote. -/
def jstrAux : Nat → List Char → List Char → Option (String × List Char)
  | 0, _, _ => none
  | Nat.succ fuel, acc, cs =>
    match cs with
    | [] => none
    | '"' :: rest => some (String.mk acc.reverse, rest)
    | '\\' :: [] => none
    | '\\' :: e :: rest =>
      match e with
      | '"' => jstrAux fuel ('"' :: acc) rest
      | '\\' => jstrAux fuel ('\\' :: acc) rest
      | '/' => jstrAux fuel ('/' :: acc) rest
      | 'n' => jstrAux fuel ('\n' :: acc) rest
      | 't' => jstrAux fuel ('\t' :: acc) rest
      | 'r' => jstrAux fuel ('\r' :: acc) rest
      | 'b' => jstrAux fuel (Char.ofNat 8 :: acc) rest
      | 'f' => jstrAux fuel (Char.ofNat 12 :: acc) rest
      | 'u' =>
        match rest with
        | h1 :: h2 :: h3 :: h4 :: rest2 =>
          match hexVal h1, hexVal h2, hexVal h3, hexVal h4 with
          | some a, some b, some c, some d =>
            jstrAux fuel (Char.ofNat (((a * 16 + b) * 16 + c) * 16 + d) :: acc) rest2
          | _, _, _, _ => none
        | _ => none
      | _ => none
    | c :: rest => if c.toNat < 32 then none else jstrAux fuel (c :: acc) rest

/-- Optional fraction of a JSON number. -/
def jsonFrac (cs : List Char) : Option (List Char × List Char) :=
  match cs with
  | '.' :: t =>
    let ds := t.takeWhile Char.isDigit
    if ds = [] then none else some ('.' :: ds, t.dropWhile Char.isDigit)
  | _ => some ([], cs)

/-- Optional exponent of a JSON number. -/
def jsonExp (cs : List Char) : Option (List Char × List Char) :=
  match cs with
  | c :: t =>
    if c = 'e' ∨ c = 'E' then
      let st := match t with
        | '+' :: u => (['+'], u)
        | '-' :: u => (['-'], u)
        | u => (([] : List Char), u)
      let ds := st.2.takeWhile Char.isDigit
      if ds = [] then none else some (c :: (st.1 ++ ds), st.2.dropWhile Char.isDigit)
    else some ([], cs)
  | [] => some ([], [])

/-- JSON number lexer following the JSON grammar: optional minus, an
integer part with no leading zero, optional fraction and exponent. -/
def parseJsonNumber (cs0 : List Char) : Option (String × List Char) :=
  let st := match cs0 with
    | '-' :: t => ((['-'] : List Char), t)
    | t => (([] : List Char), t)
  match st.2 with
  | [] => none
  | c :: t =>
    let intPart :=
      if c = '0' then some ([c], t)
      else if c.isDigit then some (c :: t.takeWhile Char.isDigit, t.dropWhile Char.isDigit)
      else none
    match intPart with
    | none => none
    | some ip =>
      match jsonFrac ip.2 with
      | none => none
      | some fp =>
        match jsonExp fp.2 with
        | none => none
        | some ep => some (String.mk (st.1 ++ ip.1 ++ fp.1 ++ ep.1), ep.2)

mutual

/-- Recursive-descent value parser modelling the builtin JSON.parse; a
strict parse failure is none, which models the builtin throwing. -/
def parseJsonVal : Nat → List Char → Option (Json × List Char)
  | 0, _ => none
  | Nat.succ fuel, cs =>
    match skipWsJson cs with
    | 'n' :: 'u' :: 'l' :: 'l' :: rest => some (Json.null, rest)
    | 't' :: 'r' :: 'u' :: 'e' :: rest => some (Json.bool true, rest)
    | 'f' :: 'a' :: 'l' :: 's' :: 'e' :: rest => some (Json.bool false, rest)
    | '"' :: rest => (jstrAux (rest.length + 1) [] rest).map (fun p => (Json.str p.1, p.2))
    | '[' :: rest =>
      match skipWsJson rest with
      | ']' :: rest2 => some (Json.arr [], rest2)
      | rest2 => parseJsonArrElems fuel rest2 []
    | '{' :: rest =>
      match skipWsJson rest with
      | '}' :: rest2 => some (Json.obj [], rest2)
      | rest2 => parseJsonObjFields fuel rest2 []
    | cs2 => (parseJsonNumber cs2).map (fun p => (Json.num p.1, p.2))

/-- Non-empty array tail parser for the JSON.parse model. -/
def parseJsonArrElems : Nat → List Char → List Json → Option (Json × List Char)
  | 0, _, _ => none
  | Nat.succ fuel, cs, acc =>
    match parseJsonVal fuel cs with
    | none => none
    | some (v, rest) =>
      match skipWsJson rest with
      | ',' :: rest2 => parseJsonArrElems fuel rest2 (acc ++ [v])
      | ']' :: rest2 => some (Json.arr (acc ++ [v]), rest2)
      | _ => none

/-- Non-empty object member parser for the JSON.parse model. -/
def parseJsonObjFields : Nat → List Char → List (String × Json) → Option (Json × List Char)
  | 0, _, _ => none
  | Nat.succ fuel, cs, acc =>
    match skipWsJson cs with
    | '"' :: rest =>
      match jstrAux (rest.length + 1) [] rest with
      | none => none
      | some (k, rest2) =>
        match skipWsJson rest2 with
        | ':' :: rest3 =>
          match parseJsonVal fuel rest3 with
          | none => none
          | some (v, rest4) =>
            match skipWsJson rest4 with
            | ',' :: rest5 => parseJsonObjFields fuel rest5 (acc ++ [(k, v)])
            | '}' :: rest5 => some (Json.obj (acc ++ [(k, v)]), rest5)
            | _ => none
        | _ => none
    | _ => none

end

/-- Model of the builtin JSON.parse: parse one value and require only
whitespace after it; none models the builtin throwing a SyntaxError. -/
def jsonParse (s : String) : Option Json :=
  match parseJsonVal (s.data.length + 2) s.data with
  | none => none
  | some (v, rest) => if skipWsJson rest = [] then some v else none

/-- The decoded body attached to the request payload: a plain string
object (the urlencoded branch, and the empty object of bodyless paths),
the multipart accumulator (text fields plus the files list), or the JSON
value of the json branch. -/
inductive Body where
  | record (fields : JSRecord)
  | multipart (m : MultiAcc)
  | json (j : Json)

/-- JavaScript String.prototype.startsWith. -/
def jsStartsWith (s pre : String) : Bool :=
  pre.data.isPrefixOf s.data

/-- Embedding of the end-of-body content-type dispatch (src/index.ts
lines 433 to 521): the urlencoded branch parses the accumulated text and
deletes the empty key; the multipart branch runs decodeMultipart; the
json branch keeps the empty object when JSON.parse throws. The result is
none when no branch emits: an unsupported content-type reaches the end of
the handler without emitting, and a multipart failure throws, so in both
cases no ready event is dispatched. -/
def decodeBody (write : String → String → Option String)
    (uploadDir timestamp : String) (contentType rawBody : String) : Option Body :=
  if jsStartsWith contentType "application/x-www-form-urlencoded" then
    some (Body.record (recDelete (parseQueryString rawBody) ""))
  else if jsStartsWith contentType "multipart/form-data" then
    (decodeMultipart write uploadDir timestamp contentType rawBody).map Body.multipart
  else if jsStartsWith contentType "application/json" then
    some (Body.json ((jsonParse rawBody).getD (Json.obj [])))
  else
    none

/-- The RequestMethod enumeration of src/index.ts. -/
inductive RequestMethod where
  | GET
  | POST
  | PUT
  | DELETE
  | OPTIONS
deriving DecidableEq, Repr

/-- The RequestType classification enumeration of src/index.ts. -/
inductive RequestType where
  | ROUTE
  | INDEX
  | FILE
  | ERROR
deriving DecidableEq, Repr

/-- A route handler reference: an application handler, identified by an
opaque number, or the internal CORSHandler that post, put and del
auto-register for OPTIONS preflight when CORS is enabled. -/
inductive Handler where
  | user (id : Nat)
  | cors
deriving DecidableEq, Repr

/-- One entry of the route table: pattern, optional method (absent means
any method) and handler. -/
structure Route where
  path : String
  method : Option RequestMethod
  handler : Handler
deriving DecidableEq, Repr

/-- Segment-by-segment walk of router.find's every callback (src/index.ts
lines 368 to 374) over one candidate, threading the shared mutable
path_data object: a capture segment (leading colon, length above one)
binds the request segment and matches; any other segment must be a
literal match. The walk stops at the first failing segment, as every
does, returning the path_data mutations made so far. -/
def matchSegs (pd : JSRecord) : List String → List String → JSRecord × Bool
  | [], _ => (pd, true)
  | chunk :: ps, rs =>
    let r := rs.headD ""
    if jsStartsWith chunk ":" ∧ chunk.length > 1 then
      matchSegs (recSet pd (chunk.drop 1) r) ps rs.tail
    else if chunk = r then
      matchSegs pd ps rs.tail
    else
      (pd, false)

/-- Embedding of router.find (src/index.ts lines 360 to 382) with the
path_data object threaded through every candidate, matching the closure
in the source mutating one shared object: candidates are tried in
registration order, a candidate whose segment count differs is skipped
without touching path_data, a candidate whose path walk fails keeps the
bindings made before the failure, and a path-matching candidate is the
result when it has no method requirement or its method equals the
request method. -/
def routerFind (routes : List Route) (method : RequestMethod) (reqRoute : String)
    (pd : JSRecord) : JSRecord × Option Route :=
  match routes with
  | [] => (pd, none)
  | route :: rest =>
    let reqSegs := jsSplit "/" reqRoute
    let pathSegs := jsSplit "/" route.path
    if reqSegs.length ≠ pathSegs.length then
      routerFind rest method reqRoute pd
    else
      let walk := matchSegs pd pathSegs reqSegs
      if walk.2 = false then
        routerFind rest method reqRoute walk.1
      else
        match route.method with
        | none => (walk.1, some route)
        | some m =>
          if method = m then (walk.1, some route)
          else routerFind rest method reqRoute walk.1

/-- Removes the first occurrence of the pattern from the string, as
JavaScript String.prototype.replace with a string pattern and an empty
replacement does. -/
def replaceFirstAux (pat : List Char) : List Char → List Char
  | [] => []
  | c :: rest =>
    if pat.isPrefixOf (c :: rest) then (c :: rest).drop pat.length
    else c :: replaceFirstAux pat rest

/-- String.prototype.replace with a string pattern and empty replacement. -/
def replaceFirst (s pat : String) : String :=
  String.mk (replaceFirstAux pat.data s.data)

/-- The request path computation of HandleRequest (src/index.ts lines 355
to 357): the text after the first question mark is the query string, the
url with the question mark and that text removed is the route, defaulting
to the root when empty. -/
def requestRoute (url : String) : String :=
  let queryString := ((jsSplit "?" url).get? 1).getD ""
  let r := replaceFirst url ("?" ++ queryString)
  if r = "" then "/" else r

/-- The query-string mapping HandleRequest builds: parse the text after
the first question mark and delete the empty key. -/
def requestQs (url : String) : JSRecord :=
  recDelete (parseQueryString (((jsSplit "?" url).get? 1).getD "")) ""

/-- The payload of one ready event: the classification with its status,
error value (carried as its message), path, path captures, query mapping
and decoded body. Fields the source leaves undefined on the FILE and
ERROR payloads are modelled as their empty values. -/
structure Emission where
  type : RequestType
  status : Nat
  error : Option String
  path : String
  path_data : JSRecord
  qs : JSRecord
  body : Body

/-- Embedding of HandleRequest (src/index.ts lines 354 to 548). The file
system and node:path joining are the fileExists and pathJoin
collaborators; write and timestamp serve the multipart decoder. The
result is the payload of the single ready event the call emits, or none
when the call emits nothing (a matched non-GET request whose declared
content-type is unsupported falls off the end of the end-of-body handler,
and a malformed multipart request throws), leaving the connection without
a response. -/
def HandleRequest (routes : List Route) (fileExists : String → Bool)
    (pathJoin : String → String → String) (publicDir uploadDir timestamp : String)
    (write : String → String → Option String) (method : RequestMethod) (url : String)
    (contentType : Option String) (rawBody : String) : Option Emission :=
  let reqRoute := requestRoute url
  let qs := recDelete (parseQueryString (((jsSplit "?" url).get? 1).getD "")) ""
  let found := routerFind routes method reqRoute []
  match found.2 with
  | some _route =>
    let base : Emission :=
      { type := RequestType.ROUTE, status := 200, error := none, path := reqRoute,
        path_data := found.1, qs := qs, body := Body.record [] }
    if method = RequestMethod.GET then
      some base
    else
      match contentType with
      | none => some base
      | some ct =>
        (decodeBody write uploadDir timestamp ct rawBody).map (fun b => { base with body := b })
  | none =>
    let publicFile := pathJoin publicDir reqRoute
    if fileExists publicFile then
      some { type := RequestType.FILE, status := 200, error := none, path := publicFile,
             path_data := [], qs := [], body := Body.record [] }
    else
      some { type := RequestType.ERROR, status := 404, error := some "404",
             path := if reqRoute = "" then publicFile else reqRoute,
             path_data := [], qs := [], body := Body.record [] }

/-- A wire response: status, content-type header when one is set, body. -/
structure HttpResponse where
  status : Nat
  contentType : Option String
  body : String
deriving DecidableEq, Repr

/-- Outcome of the ready-event consumer: a response written by a default
behavior, a completed application handler (which writes its own response,
outside this core), or the default FILE streaming of the named path. -/
inductive DispatchResult where
  | response (r : HttpResponse)
  | handlerRan (result : Option Bool)
  | fileStreamed (path : String)
deriving DecidableEq, Repr

/-- Embedding of the ready-event consumer (src/index.ts lines 565 to 620)
with the default hooks, which return a falsy result so the default
behavior always runs: ERROR writes the payload status with the error
message (or the unknown-error message) as plain text, FILE streams the
payload path, INDEX redirects, and ROUTE awaits the handler, whose
outcome is the handlerOutcome argument - an exception (carried as the
optional message of the thrown value, none for a falsy throw) is caught
at this boundary and written as a 500 plain-text response with the error
message. -/
def dispatchReady (handlerOutcome : Except (Option String) (Option Bool))
    (e : Emission) : DispatchResult :=
  match e.type with
  | RequestType.ERROR =>
    DispatchResult.response
      { status := e.status, contentType := some "text/plain",
        body := e.error.getD "Unknown Error" }
  | RequestType.FILE => DispatchResult.fileStreamed e.path
  | RequestType.INDEX => DispatchResult.response { status := 302, contentType := none, body := "" }
  | RequestType.ROUTE =>
    match handlerOutcome with
    | Except.error err =>
      DispatchResult.response
        { status := 500, contentType := some "text/plain",
          body := err.getD "Internal Server Error" }
    | Except.ok r => DispatchResult.handlerRan r

/-- The module-level mutable state of src/index.ts: the maintenance and
CORS flags, the two directories, the route table, and the three
overridable hook slots (held as opaque handler numbers; zero is the
initial falsy-returning default). -/
structure ServerState where
  underMaintenance : Bool
  corsEnabled : Bool
  publicDir : String
  uploadDir : String
  router : List Route
  errorCallback : Nat
  fileCallback : Nat
  indexCallback : Nat
deriving DecidableEq, Repr

/-- The state at module load (src/index.ts lines 16 to 22 and 334
to 336). -/
def initialState : ServerState :=
  { underMaintenance := false, corsEnabled := true, publicDir := "public",
    uploadDir := "uploads", router := [], errorCallback := 0, fileCallback := 0,
    indexCallback := 0 }

/-- The exported mutating operations of src/index.ts. -/
inductive ServerOp where
  | down
  | up
  | setCORS (flag : Bool)
  | setPublicDir (p : String)
  | setUploadDir (p : String)
  | get (path : String) (h : Nat)
  | post (path : String) (h : Nat)
  | put (path : String) (h : Nat)
  | del (path : String) (h : Nat)
  | option (path : String) (h : Nat)
  | anyMethod (path : String) (h : Nat)
  | onError (h : Nat)
  | onFile (h : Nat)
  | onIndex (h : Nat)

/-- State transition of each exported operation (src/index.ts lines 252
to 348): down and up both set the maintenance flag to true (up does not
clear it); post, put and del also append an OPTIONS preflight route when
CORS is enabled; the hook setters replace the stored callback. -/
def applyOp (op : ServerOp) (s : ServerState) : ServerState :=
  match op with
  | ServerOp.down => { s with underMaintenance := true }
  | ServerOp.up => { s with underMaintenance := true }
  | ServerOp.setCORS flag => { s with corsEnabled := flag }
  | ServerOp.setPublicDir p => { s with publicDir := p }
  | ServerOp.setUploadDir p => { s with uploadDir := p }
  | ServerOp.get p h =>
    { s with router := s.router ++ [⟨p, some RequestMethod.GET, Handler.user h⟩] }
  | ServerOp.post p h =>
    { s with router := s.router ++ [⟨p, some RequestMethod.POST, Handler.user h⟩]
        ++ (if s.corsEnabled then [⟨p, some RequestMethod.OPTIONS, Handler.cors⟩] else []) }
  | ServerOp.put p h =>
    { s with router := s.router ++ [⟨p, some RequestMethod.PUT, Handler.user h⟩]
        ++ (if s.corsEnabled then [⟨p, some RequestMethod.OPTIONS, Handler.cors⟩] else []) }
  | ServerOp.del p h =>
    { s with router := s.router ++ [⟨p, some RequestMethod.DELETE, Handler.user h⟩]
        ++ (if s.corsEnabled then [⟨p, some RequestMethod.OPTIONS, Handler.cors⟩] else []) }
  | ServerOp.option p h =>
    { s with router := s.router ++ [⟨p, some RequestMethod.OPTIONS, Handler.user h⟩] }
  | ServerOp.anyMethod p h =>
    { s with router := s.router ++ [⟨p, none, Handler.user h⟩] }
  | ServerOp.onError h => { s with errorCallback := h }
  | ServerOp.onFile h => { s with fileCallback := h }
  | ServerOp.onIndex h => { s with indexCallback := h }

/-- Outcome of the connection listener: the maintenance short-circuit
response, or the request handed to HandleRequest. -/
inductive ServerOutcome where
  | maintenanceResponse (r : HttpResponse)
  | dispatched (e : Option Emission)

/-- Embedding of the connection listener (src/index.ts lines 551 to 563):
when the maintenance flag is set the request is answered with the fixed
plain-text maintenance body and never routed; otherwise it goes to
HandleRequest. -/
def serverOnRequest (s : ServerState) (fileExists : String → Bool)
    (pathJoin : String → String → String) (timestamp : String)
    (write : String → String → Option String) (method : RequestMethod) (url : String)
    (contentType : Option String) (rawBody : String) : ServerOutcome :=
  if s.underMaintenance then
    ServerOutcome.maintenanceResponse
      { status := 200, contentType := some "text/plain", body := "Under Maintenance" }
  else
    ServerOutcome.dispatched
      (HandleRequest s.router fileExists pathJoin s.publicDir s.uploadDir timestamp write
        method url contentType rawBody)

/-- The files list the multipart decoder is expected to produce for a
raw body: the per-part upload outcomes of the boundary-grouped parts, in
body order. -/
def multipartExpectedFiles (write : String → String → Option String)
    (uploadDir timestamp ct data : String) : Option (List UploadResult) :=
  (extractBoundary ct).map
    (fun b => (splitParts b data).filterMap (partFileResult write uploadDir timestamp))

/-- The body the end-of-body handler would decode for a request, indexed
over the optional content-type header: none when there is no header, some
of the decode outcome otherwise. -/
def attemptedDecode (write : String → String → Option String)
    (uploadDir timestamp : String) (contentType : Option String) (rawBody : String) :
    Option (Option Body) :=
  contentType.map (fun ct => decodeBody write uploadDir timestamp ct rawBody)

/-- Projection of an optional emission to its classification, status,
error and the dispatch outcome under a given handler outcome. -/
def emissionSummary (handlerOutcome : Except (Option String) (Option Bool))
    (e : Option Emission) : Option (RequestType × Nat × Option String × DispatchResult) :=
  e.map (fun em => (em.type, em.status, em.error, dispatchReady handlerOutcome em))

/-- Projection of an optional emission to its classification and path
captures. -/
def typeAndCaptures (e : Option Emission) : Option (RequestType × JSRecord) :=
  e.map (fun em => (em.type, em.path_data))

/-- Write collaborator on which every write succeeds. -/
def writeNone : String → String → Option String :=
  fun _ _ => none

/-- Write collaborator that fails exactly on the first fixture upload
path, with a fixed error message. -/
def writeFailF1 : String → String → Option String :=
  fun p _ => if p = "uploads/f1" then some "EIO" else none

/-- Static-asset collaborator with no files. -/
def fileExistsNone : String → Bool :=
  fun _ => false

/-- Path-joining collaborator for concrete instances: plain
concatenation, which is all the fixtures need. -/
def pathJoinConcat : String → String → String :=
  fun a b => a ++ b

/-- A ROUTE emission fixture for the dispatch theorems. -/
def routeEmission : Emission :=
  { type := RequestType.ROUTE, status := 200, error := none, path := "/",
    path_data := [], qs := [], body := Body.record [] }

theorem step_of_fileResult (write : String → String → Option String) (u t part : String)
    (acc : MultiAcc) (r : UploadResult) (h : partFileResult write u t part = some r) :
    parseMultiPartsStep write u t part acc =
      some { acc with uploadedFiles := acc.uploadedFiles ++ [r] } := by
  cases hdisp : matchParam "filename=" part with
  | none => simp [partFileResult, hdisp] at h
  | some fn =>
    cases hc : (jsSplit "\r\n\r\n" part)[1]? with
    | none => simp [partFileResult, hdisp, hc] at h
    | some c =>
      obtain ⟨rf, re⟩ := r
      simp [partFileResult, hdisp, hc] at h
      obtain ⟨h1, h2⟩ := h
      subst h1
      simp [parseMultiPartsStep, hdisp, hc, h2]

theorem step_none_fileResult_files (write : String → String → Option String)
    (u t part : String) (acc acc2 : MultiAcc)
    (hf : partFileResult write u t part = none)
    (hs : parseMultiPartsStep write u t part acc = some acc2) :
    acc2.uploadedFiles = acc.uploadedFiles := by
  cases hdisp : matchParam "filename=" part with
  | some fn =>
    cases hc : (jsSplit "\r\n\r\n" part)[1]? with
    | none => simp [parseMultiPartsStep, hdisp, hc] at hs
    | some c => simp [partFileResult, hdisp, hc] at hf
  | none =>
    cases hc : (jsSplit "\r\n\r\n" part)[1]? with
    | none => simp [parseMultiPartsStep, hdisp, hc] at hs
    | some c =>
      simp [parseMultiPartsStep, hdisp, hc] at hs
      split at hs <;> (obtain rfl := Option.some_inj.mp hs) <;> rfl

theorem parseMultiParts_files (write : String → String → Option String) (u t : String)
    (parts : List String) :
    ∀ (acc out : MultiAcc), parseMultiParts write u t parts acc = some out →
      out.uploadedFiles = acc.uploadedFiles ++ parts.filterMap (partFileResult write u t) := by
  induction parts with
  | nil =>
    intro acc out h
    simp only [parseMultiParts, Option.some_inj] at h
    subst h
    simp
  | cons p rest ih =>
    intro acc out h
    simp only [parseMultiParts] at h
    cases hs : parseMultiPartsStep write u t p acc with
    | none => rw [hs] at h; cases h
    | some acc2 =>
      rw [hs] at h
      cases hf : partFileResult write u t p with
      | none =>
        have hsame := step_none_fileResult_files write u t p acc acc2 hf hs
        have h2 := ih acc2 out h
        rw [h2, hsame, List.filterMap_cons, hf]
      | some r =>
        have hstep := step_of_fileResult write u t p acc r hf
        rw [hstep, Option.some_inj] at hs
        have h2 := ih acc2 out h
        rw [h2, ← hs, List.filterMap_cons, hf]
        simp

set_option maxRecDepth 100000 in
/-- Claim C1: the claim states a part with name file1 and filename a.txt
is persisted as a.txt under the upload directory; evaluating the decoder
at that input shows the destination is the name parameter file1, because
the code derives the destination from the name capture and never uses the
filename capture. -/
theorem multipart_destination_uses_name_param :
    decodeMultipart writeNone "uploads" "ts" "multipart/form-data; boundary=XYZ"
      "--XYZ\r\nContent-Disposition: form-data; name=\"file1\"; filename=\"a.txt\"\r\n\r\ndata\r\n--XYZ--\r\n"
      = some ⟨[], [⟨"uploads/file1", none⟩]⟩ ∧
    ("uploads/file1" : String) ≠ "uploads/a.txt" := by
  decide

set_option maxRecDepth 100000 in
/-- Claim C2, counterexample: a matched POST request declaring the
unsupported content-type text/plain produces no emission at all, so no
classification is dispatched and no response is written, contradicting
the claim that every request is classified and answered. -/
theorem unsupported_content_type_hangs :
    (HandleRequest [⟨"/test", some RequestMethod.POST, Handler.user 1⟩] fileExistsNone
      pathJoinConcat "public" "uploads" "ts" writeNone RequestMethod.POST "/test"
      (some "text/plain") "x").isNone = true := by
  decide

/-- Claim C2, amended: every inbound request is classified and answered
except a matched non-GET request that declares a content-type whose body
the decoder cannot produce (an unsupported type, or a multipart body that
makes the decoder throw); formally, whenever HandleRequest emits nothing
the route matched, the method is not GET, and the declared content-type
is present with an undecodable body. -/
theorem handleRequest_dispatches_unless_undecodable_body
    (routes : List Route) (fe : String → Bool) (pj : String → String → String)
    (pubD upD ts : String) (write : String → String → Option String)
    (m : RequestMethod) (url : String) (ct : Option String) (rawBody : String)
    (h : (HandleRequest routes fe pj pubD upD ts write m url ct rawBody).isNone = true) :
    (routerFind routes m (requestRoute url) []).2.isSome = true ∧
    m ≠ RequestMethod.GET ∧
    attemptedDecode write upD ts ct rawBody = some none := by
  rw [Option.isNone_iff_eq_none] at h
  simp only [HandleRequest] at h
  split at h
  case _ route heq =>
    by_cases hm : m = RequestMethod.GET
    · rw [if_pos hm] at h; exact Option.noConfusion h
    · rw [if_neg hm] at h
      cases ct with
      | none => exact Option.noConfusion h
      | some ctv =>
        change Option.map _ (decodeBody write upD ts ctv rawBody) = none at h
        rw [Option.map_eq_none'] at h
        exact ⟨by rw [heq]; rfl, hm, by simp [attemptedDecode, h]⟩
  case _ heq =>
    split at h <;> exact Option.noConfusion h

/-- Claim C2, amended, witness at the hanging input. -/
theorem handleRequest_dispatches_unless_undecodable_body_witness :
    (routerFind [⟨"/test", some RequestMethod.POST, Handler.user 1⟩] RequestMethod.POST
        (requestRoute "/test") []).2.isSome = true ∧
    RequestMethod.POST ≠ RequestMethod.GET ∧
    attemptedDecode writeNone "uploads" "ts" (some "text/plain") "x" = some none :=
  handleRequest_dispatches_unless_undecodable_body
    [⟨"/test", some RequestMethod.POST, Handler.user 1⟩] fileExistsNone pathJoinConcat
    "public" "uploads" "ts" writeNone RequestMethod.POST "/test" (some "text/plain") "x"
    (by decide)

/-- Claim C3: the multipart decoder processes parts strictly one at a
time, so whenever decoding completes, the files list of the decoded body
is exactly the per-part upload outcomes of the boundary-grouped parts in
the order the parts appeared in the body. -/
theorem multipart_files_in_part_order (write : String → String → Option String)
    (u t ct data : String) (out : MultiAcc)
    (h : decodeMultipart write u t ct data = some out) :
    multipartExpectedFiles write u t ct data = some out.uploadedFiles := by
  unfold decodeMultipart at h
  cases hb : extractBoundary ct with
  | none => rw [hb] at h; exact Option.noConfusion h
  | some b =>
    rw [hb] at h
    have hfiles := parseMultiParts_files write u t (splitParts b data) ⟨[], []⟩ out h
    simp [multipartExpectedFiles, hb, hfiles]

set_option maxRecDepth 400000 in
/-- Claim C3, witness: a two-file multipart body decodes with the files
list in body order. -/
theorem multipart_files_in_part_order_witness :
    multipartExpectedFiles writeNone "uploads" "ts" "multipart/form-data; boundary=B"
      "--B\r\nContent-Disposition: form-data; name=\"f1\"; filename=\"a.txt\"\r\n\r\nAAA\r\n--B\r\nContent-Disposition: form-data; name=\"f2\"; filename=\"b.txt\"\r\n\r\nBBB\r\n--B--\r\n"
      = some [⟨"uploads/f1", none⟩, ⟨"uploads/f2", none⟩] :=
  multipart_files_in_part_order writeNone "uploads" "ts" "multipart/form-data; boundary=B"
    "--B\r\nContent-Disposition: form-data; name=\"f1\"; filename=\"a.txt\"\r\n\r\nAAA\r\n--B\r\nContent-Disposition: form-data; name=\"f2\"; filename=\"b.txt\"\r\n\r\nBBB\r\n--B--\r\n"
    ⟨[], [⟨"uploads/f1", none⟩, ⟨"uploads/f2", none⟩]⟩ (by decide)

/-- Claim C4: when the write of a file part fails, the failing step still
appends an UploadResult carrying the error and hands the remaining parts
to the same sequential chain, so decoding continues and every later part
contributes its entry in its correct position. -/
theorem multipart_write_failure_does_not_abort
    (write : String → String → Option String) (u t p : String) (rest : List String)
    (acc : MultiAcc) (r : UploadResult) (err : String)
    (hfile : partFileResult write u t p = some r) (_herr : r.error = some err) :
    parseMultiParts write u t (p :: rest) acc =
      parseMultiParts write u t rest { acc with uploadedFiles := acc.uploadedFiles ++ [r] } ∧
    ∀ out : MultiAcc, parseMultiParts write u t (p :: rest) acc = some out →
      out.uploadedFiles = acc.uploadedFiles ++ r :: rest.filterMap (partFileResult write u t) := by
  have hstep := step_of_fileResult write u t p acc r hfile
  constructor
  · simp only [parseMultiParts, hstep]
  · intro out hout
    have hall := parseMultiParts_files write u t (p :: rest) acc out hout
    rw [hall, List.filterMap_cons, hfile]

set_option maxRecDepth 400000 in
/-- Claim C4, witness: with a write collaborator failing on the first
upload path, a three-part body (file, text field, file) records the error
on the first entry and still processes the other two parts. -/
theorem multipart_write_failure_does_not_abort_witness :
    parseMultiParts writeFailF1 "uploads" "ts"
      ["Content-Disposition: form-data; name=\"f1\"; filename=\"a.txt\"\r\n\r\nAAA",
       "Content-Disposition: form-data; name=\"field\"\r\n\r\nv",
       "Content-Disposition: form-data; name=\"f2\"; filename=\"b.txt\"\r\n\r\nBBB"] ⟨[], []⟩ =
      parseMultiParts writeFailF1 "uploads" "ts"
        ["Content-Disposition: form-data; name=\"field\"\r\n\r\nv",
         "Content-Disposition: form-data; name=\"f2\"; filename=\"b.txt\"\r\n\r\nBBB"]
        ⟨[], [⟨"uploads/f1", some "EIO"⟩]⟩ ∧
    (⟨[("field", "v")], [⟨"uploads/f1", some "EIO"⟩, ⟨"uploads/f2", none⟩]⟩ : MultiAcc).uploadedFiles =
      [] ++ ⟨"uploads/f1", some "EIO"⟩ ::
        (["Content-Disposition: form-data; name=\"field\"\r\n\r\nv",
          "Content-Disposition: form-data; name=\"f2\"; filename=\"b.txt\"\r\n\r\nBBB"].filterMap
          (partFileResult writeFailF1 "uploads" "ts")) :=
  ⟨(multipart_write_failure_does_not_abort writeFailF1 "uploads" "ts"
      "Content-Disposition: form-data; name=\"f1\"; filename=\"a.txt\"\r\n\r\nAAA"
      ["Content-Disposition: form-data; name=\"field\"\r\n\r\nv",
       "Content-Disposition: form-data; name=\"f2\"; filename=\"b.txt\"\r\n\r\nBBB"] ⟨[], []⟩
      ⟨"uploads/f1", some "EIO"⟩ "EIO" (by decide) rfl).1,
   (multipart_write_failure_does_not_abort writeFailF1 "uploads" "ts"
      "Content-Disposition: form-data; name=\"f1\"; filename=\"a.txt\"\r\n\r\nAAA"
      ["Content-Disposition: form-data; name=\"field\"\r\n\r\nv",
       "Content-Disposition: form-data; name=\"f2\"; filename=\"b.txt\"\r\n\r\nBBB"] ⟨[], []⟩
      ⟨"uploads/f1", some "EIO"⟩ "EIO" (by decide) rfl).2
     ⟨[("field", "v")], [⟨"uploads/f1", some "EIO"⟩, ⟨"uploads/f2", none⟩]⟩ (by decide)⟩

set_option maxRecDepth 100000 in
/-- Claim C5: the capture mapping handed to the matched handler keeps the
bindings written by earlier failed candidates: with the routes for the
patterns slash-colon-a-slash-x and slash-b-slash-colon-c registered in
that order, the request for slash-b-slash-y matches the second route yet
its capture mapping holds both a bound to b and c bound to y. -/
theorem path_captures_accumulate_across_candidates :
    typeAndCaptures (HandleRequest
      [⟨"/:a/x", some RequestMethod.GET, Handler.user 1⟩,
       ⟨"/b/:c", some RequestMethod.GET, Handler.user 2⟩] fileExistsNone pathJoinConcat
      "public" "uploads" "ts" writeNone RequestMethod.GET "/b/y" none "") =
      some (RequestType.ROUTE, [("a", "b"), ("c", "y")]) ∧
    routerFind
      [⟨"/:a/x", some RequestMethod.GET, Handler.user 1⟩,
       ⟨"/b/:c", some RequestMethod.GET, Handler.user 2⟩] RequestMethod.GET "/b/y" [] =
      ([("a", "b"), ("c", "y")], some ⟨"/b/:c", some RequestMethod.GET, Handler.user 2⟩) := by
  constructor
  · rfl
  · decide

set_option maxRecDepth 100000 in
/-- Claim C6, counterexample: the decoder takes as value only the text
between the first and second equals sign of a pair, not everything after
the first one as the claim states: the pair a=1=2 decodes to the value 1,
while the rule the claim words (parseQueryStringSpec) yields 1=2. -/
theorem urlencoded_value_truncated_at_second_equals :
    parseQueryString "a=1=2" = [("a", "1")] ∧
    parseQueryStringSpec "a=1=2" = [("a", "1=2")] ∧
    parseQueryString "a=1=2" ≠ parseQueryStringSpec "a=1=2" := by
  decide

set_option maxRecDepth 100000 in
/-- Claim C6, amended: decoding an urlencoded body splits on the
ampersand and on every equals sign per pair, taking the text before the
first equals sign as the key and the percent-decoded text between the
first and the second equals sign as the value (text after a second equals
sign is dropped, and a pair with no equals sign gets the undefined
rendering); entries with an empty key are discarded. In particular
a=1&b=2&=3 decodes to exactly a maps-to 1 and b maps-to 2. -/
theorem urlencoded_decode_amended :
    recDelete (parseQueryString "a=1&b=2&=3") "" = [("a", "1"), ("b", "2")] ∧
    recDelete (parseQueryString "a=1=2") "" = [("a", "1")] ∧
    recDelete (parseQueryString "x") "" = [("x", "undefined")] ∧
    recDelete (parseQueryString "a=%20") "" = [("a", " ")] := by
  decide

/-- Claim C7: a request matching no route and resolving to no existing
static file is emitted as an ERROR classification with status 404 and the
error value whose message is 404, and the default ERROR behavior answers
with that status and the message as plain text. -/
theorem no_route_no_file_yields_404
    (ho : Except (Option String) (Option Bool)) (routes : List Route) (fe : String → Bool)
    (pj : String → String → String) (pubD upD ts : String)
    (write : String → String → Option String) (m : RequestMethod) (url : String)
    (ct : Option String) (rawBody : String)
    (hmatch : (routerFind routes m (requestRoute url) []).2 = none)
    (hfile : fe (pj pubD (requestRoute url)) = false) :
    emissionSummary ho (HandleRequest routes fe pj pubD upD ts write m url ct rawBody) =
      some (RequestType.ERROR, 404, some "404",
        DispatchResult.response ⟨404, some "text/plain", "404"⟩) := by
  simp only [HandleRequest, hmatch, hfile]
  simp [emissionSummary, dispatchReady]

/-- Claim C7, witness: with an empty route table and no static files, a
GET request is answered 404 with the plain-text body 404. -/
theorem no_route_no_file_yields_404_witness :
    emissionSummary (Except.ok none)
      (HandleRequest [] fileExistsNone pathJoinConcat "public" "uploads" "ts" writeNone
        RequestMethod.GET "/nope" none "") =
      some (RequestType.ERROR, 404, some "404",
        DispatchResult.response ⟨404, some "text/plain", "404"⟩) :=
  no_route_no_file_yields_404 (Except.ok none) [] fileExistsNone pathJoinConcat "public"
    "uploads" "ts" writeNone RequestMethod.GET "/nope" none "" (by decide) (by decide)

/-- Claim C8: on a ROUTE classification whose handler throws, the fault
is caught at the dispatch boundary and converted into a 500 plain-text
response carrying the message of the thrown error; dispatchReady is total,
so no fault propagates past it. -/
theorem handler_fault_becomes_500 (e : Emission) (msg : String)
    (h : e.type = RequestType.ROUTE) :
    dispatchReady (Except.error (some msg)) e =
      DispatchResult.response ⟨500, some "text/plain", msg⟩ := by
  simp [dispatchReady, h]

/-- Claim C8, witness: a handler fault with the message boom on a ROUTE
emission dispatches as a 500 response with body boom. -/
theorem handler_fault_becomes_500_witness :
    dispatchReady (Except.error (some "boom")) routeEmission =
      DispatchResult.response ⟨500, some "text/plain", "boom"⟩ :=
  handler_fault_becomes_500 routeEmission "boom" rfl

/-- Claim C9: an application-json body that fails to parse decodes to
the empty mapping, and the decoder returns it normally rather than
propagating the parse error. -/
theorem json_parse_failure_yields_empty_mapping
    (write : String → String → Option String) (upD ts ct rawBody : String)
    (hjson : jsStartsWith ct "application/json" = true)
    (hurl : jsStartsWith ct "application/x-www-form-urlencoded" = false)
    (hmp : jsStartsWith ct "multipart/form-data" = false)
    (hfail : (jsonParse rawBody).isNone = true) :
    decodeBody write upD ts ct rawBody = some (Body.json (Json.obj [])) := by
  rw [Option.isNone_iff_eq_none] at hfail
  simp [decodeBody, hjson, hurl, hmp, hfail]

set_option maxRecDepth 100000 in
/-- Claim C9, witness: the body open-brace-not-valid-json decodes under
content-type application/json to the empty JSON object. -/
theorem json_parse_failure_yields_empty_mapping_witness :
    decodeBody writeNone "uploads" "ts" "application/json" "\x7bnot valid json" =
      some (Body.json (Json.obj [])) :=
  json_parse_failure_yields_empty_mapping writeNone "uploads" "ts" "application/json"
    "\x7bnot valid json" (by decide) (by decide) (by decide) (by decide)

/-- Claim C10: both down and up set the maintenance flag to true, no
exported operation ever resets it to false, and while the flag is set
every inbound request is answered with the fixed Under Maintenance
plain-text response and never routed. -/
theorem maintenance_flag_never_cleared :
    (∀ s : ServerState, (applyOp ServerOp.up s).underMaintenance = true ∧
        (applyOp ServerOp.down s).underMaintenance = true) ∧
    (∀ (op : ServerOp) (s : ServerState),
        (applyOp op s).underMaintenance = true ∨
        (applyOp op s).underMaintenance = s.underMaintenance) ∧
    (∀ (s : ServerState) (fe : String → Bool) (pj : String → String → String)
        (ts : String) (write : String → String → Option String) (m : RequestMethod)
        (url : String) (ct : Option String) (rawBody : String),
        s.underMaintenance = true →
        serverOnRequest s fe pj ts write m url ct rawBody =
          ServerOutcome.maintenanceResponse ⟨200, some "text/plain", "Under Maintenance"⟩) := by
  refine ⟨fun s => ⟨rfl, rfl⟩, fun op s => ?_, fun s fe pj ts write m url ct rawBody h => ?_⟩
  · cases op <;> simp [applyOp]
  · simp [serverOnRequest, h]

/-- Claim C10, witness: up leaves the initial state flagged, and a
request against the state produced by down is answered with the
maintenance response. -/
theorem maintenance_flag_never_cleared_witness :
    (applyOp ServerOp.up initialState).underMaintenance = true ∧
    serverOnRequest (applyOp ServerOp.down initialState) fileExistsNone pathJoinConcat "ts"
      writeNone RequestMethod.GET "/" none "" =
      ServerOutcome.maintenanceResponse ⟨200, some "text/plain", "Under Maintenance"⟩ :=
  ⟨(maintenance_flag_never_cleared.1 initialState).1,
   maintenance_flag_never_cleared.2.2 (applyOp ServerOp.down initialState) fileExistsNone
     pathJoinConcat "ts" writeNone RequestMethod.GET "/" none "" rfl⟩
